import Mathlib

/-!
Verification development for `training_ptr_gen/train.py` of the
pointer_summarizer repository.

The training loop of `Train.train_one_batch` (lines 93-141) is embedded
shallowly: the decoder, encoder and batch adapters are external collaborators
of the loop and are therefore modelled as opaque parameters bundled in
`BatchModel`; the loop's own arithmetic (gold-probability lookup, step loss,
coverage penalty, masking, aggregation) is translated literally, over `ℚ`,
with `torch.log` modelled as an opaque function `Hyper.log` (the loop never
relies on properties of the logarithm).  Gradient clipping
(`torch.nn.utils.clip_grad_norm_`, lines 133-137) is modelled over `ℝ`
because it rescales by a Euclidean norm.  `Train.setup_train`,
`Train.save_model` and `Train.trainIters` are embedded as pure functions /
structural recursion over the iteration budget.
-/

/-- Result of one call of `self.model.decoder` (train.py lines 108-112):
`final_dist, s_t_1, c_t_1, attn_dist, p_gen, next_coverage`.  `B` is the
batch size, `V` the extended-vocabulary size, `L` the source length; `S` and
`Ctx` are the opaque types of the decoder hidden state and context vector. -/
structure DecoderOutput (B V L : ℕ) (S Ctx : Type) where
  final_dist : Fin B → Fin V → ℚ
  s_t_1 : S
  c_t_1 : Ctx
  attn_dist : Fin B → Fin L → ℚ
  p_gen : Fin B → ℚ
  next_coverage : Fin B → Fin L → ℚ

/-- Configuration constants read by `train_one_batch` from `data_util.config`,
plus `log`, the model of the external numerical primitive `torch.log`. -/
structure Hyper where
  is_coverage : Bool
  cov_loss_wt : ℚ
  eps : ℚ
  max_dec_steps : ℕ
  log : ℚ → ℚ

/-- Per-batch data of `train_one_batch`: the decoder-side tensors produced by
`get_output_from_batch` (line 96-97), the initial decoder state produced by
the encoder / `reduce_state` / `get_input_from_batch` (lines 94-103), and the
opaque decoder itself (its fixed per-batch arguments `encoder_outputs`,
`encoder_feature`, `enc_padding_mask`, `extra_zeros`,
`enc_batch_extend_vocab` are absorbed into the closure); its explicit
arguments are `y_t_1`, `s_t_1`, `c_t_1`, `coverage` and the step index `di`.
The context vector `c_t_1` is threaded through the closure state `Ctx`. -/
structure BatchModel (B V L : ℕ) (S Ctx : Type) where
  dec_batch : Fin B → ℕ → ℕ
  target_batch : Fin B → ℕ → Fin V
  dec_padding_mask : Fin B → ℕ → ℚ
  dec_lens_var : Fin B → ℚ
  max_dec_len : ℕ
  decoder : (Fin B → ℕ) → S → Ctx → (Fin B → Fin L → ℚ) → ℕ → DecoderOutput B V L S Ctx
  s_0 : S
  c_0 : Ctx
  coverage_0 : Fin B → Fin L → ℚ

/-- Loop-carried state of the decode loop (train.py lines 105-125): the
decoder hidden state `s_t_1`, context vector `c_t_1`, the coverage
accumulator, and the list `step_losses`.  `inputs` is ghost instrumentation
recording each `y_t_1` handed to the decoder, used to state the
teacher-forcing property. -/
structure StepState (B L : ℕ) (S Ctx : Type) where
  s_t_1 : S
  c_t_1 : Ctx
  coverage : Fin B → Fin L → ℚ
  step_losses : List (Fin B → ℚ)
  inputs : List (Fin B → ℕ)

/-- Embedding of `torch.sum(torch.min(attn_dist, coverage), 1)`
(train.py lines 118-119): per example, the sum over source positions of the
element-wise minimum of attention and coverage. -/
def step_coverage_loss {B L : ℕ} (attn_dist coverage : Fin B → Fin L → ℚ) :
    Fin B → ℚ :=
  fun b => ∑ l, min (attn_dist b l) (coverage b l)

/-- The decoder call of step `di` (train.py lines 107-112): the input
`y_t_1` is `dec_batch[:, di]` (teacher forcing), and the current hidden
state, context vector and coverage accumulator are passed in. -/
def decOut {B V L : ℕ} {S Ctx : Type} (M : BatchModel B V L S Ctx)
    (st : StepState B L S Ctx) (di : ℕ) : DecoderOutput B V L S Ctx :=
  M.decoder (fun b => M.dec_batch b di) st.s_t_1 st.c_t_1 st.coverage di

/-- The masked per-example loss recorded at step `di` (train.py lines
113-125): `gold_probs = gather(final_dist, target)`,
`step_loss = -log(gold_probs + eps)`, plus the weighted coverage penalty when
`is_coverage`, finally multiplied by `dec_padding_mask[:, di]`. -/
def stepLossOf {B V L : ℕ} {S Ctx : Type} (H : Hyper) (M : BatchModel B V L S Ctx)
    (st : StepState B L S Ctx) (di : ℕ) : Fin B → ℚ :=
  let out := decOut M st di
  let gold_probs : Fin B → ℚ := fun b => out.final_dist b (M.target_batch b di)
  let step_loss : Fin B → ℚ := fun b => -(H.log (gold_probs b + H.eps))
  let step_loss : Fin B → ℚ :=
    if H.is_coverage then
      fun b => step_loss b + H.cov_loss_wt * step_coverage_loss out.attn_dist st.coverage b
    else step_loss
  fun b => step_loss b * M.dec_padding_mask b di

/-- One iteration of the decode loop body (train.py lines 106-125): call the
decoder, record the masked step loss, replace the coverage accumulator by the
decoder's `next_coverage` exactly when `is_coverage` (line 121), and thread
the updated hidden state and context vector. -/
def doStep {B V L : ℕ} {S Ctx : Type} (H : Hyper) (M : BatchModel B V L S Ctx)
    (st : StepState B L S Ctx) (di : ℕ) : StepState B L S Ctx :=
  let out := decOut M st di
  { s_t_1 := out.s_t_1
    c_t_1 := out.c_t_1
    coverage := if H.is_coverage then out.next_coverage else st.coverage
    step_losses := st.step_losses ++ [stepLossOf H M st di]
    inputs := st.inputs ++ [fun b => M.dec_batch b di] }

/-- State entering the decode loop: `s_t_1` from `reduce_state`, `c_t_1` and
`coverage` from `get_input_from_batch`, no step losses yet. -/
def initState {B V L : ℕ} {S Ctx : Type} (M : BatchModel B V L S Ctx) :
    StepState B L S Ctx :=
  { s_t_1 := M.s_0, c_t_1 := M.c_0, coverage := M.coverage_0
    step_losses := [], inputs := [] }

/-- State after the first `n` iterations of the decode loop. -/
def runSteps {B V L : ℕ} {S Ctx : Type} (H : Hyper) (M : BatchModel B V L S Ctx) :
    ℕ → StepState B L S Ctx
  | 0 => initState M
  | n + 1 => doStep H M (runSteps H M n) n

/-- Number of decode-loop iterations:
`range(min(max_dec_len, config.max_dec_steps))` (train.py line 106). -/
def numSteps {B V L : ℕ} {S Ctx : Type} (H : Hyper) (M : BatchModel B V L S Ctx) : ℕ :=
  min M.max_dec_len H.max_dec_steps

/-- Embedding of `sum_losses = torch.sum(torch.stack(step_losses, 1), 1)`
(line 127): per example, the sum of its recorded step losses. -/
def sum_losses {B V L : ℕ} {S Ctx : Type} (H : Hyper) (M : BatchModel B V L S Ctx) :
    Fin B → ℚ :=
  fun b => (((runSteps H M (numSteps H M)).step_losses).map (fun f => f b)).sum

/-- Embedding of `batch_avg_loss = sum_losses / dec_lens_var` (line 128). -/
def batch_avg_loss {B V L : ℕ} {S Ctx : Type} (H : Hyper) (M : BatchModel B V L S Ctx) :
    Fin B → ℚ :=
  fun b => sum_losses H M b / M.dec_lens_var b

/-- Embedding of `loss = torch.mean(batch_avg_loss)` (line 129): the mean
over the batch dimension, i.e. the sum over examples divided by `B`. -/
def loss {B V L : ℕ} {S Ctx : Type} (H : Hyper) (M : BatchModel B V L S Ctx) : ℚ :=
  (∑ b, batch_avg_loss H M b) / B

/-- The step-loss list after `n` iterations is the list of the per-step
losses, step `di` computed from the loop state entering step `di`. -/
theorem runSteps_step_losses {B V L : ℕ} {S Ctx : Type} (H : Hyper)
    (M : BatchModel B V L S Ctx) (n : ℕ) :
    (runSteps H M n).step_losses
      = (List.range n).map (fun di => stepLossOf H M (runSteps H M di) di) := by
  induction n with
  | zero => rfl
  | succ k ih =>
      rw [runSteps, List.range_succ, List.map_append]
      show (runSteps H M k).step_losses ++ _ = _
      rw [ih]
      rfl

/-- The ghost input list after `n` iterations records, at position `di`, the
gold target column `dec_batch[:, di]`. -/
theorem runSteps_inputs {B V L : ℕ} {S Ctx : Type} (H : Hyper)
    (M : BatchModel B V L S Ctx) (n : ℕ) :
    (runSteps H M n).inputs
      = (List.range n).map (fun di => fun b => M.dec_batch b di) := by
  induction n with
  | zero => rfl
  | succ k ih =>
      rw [runSteps, List.range_succ, List.map_append]
      show (runSteps H M k).inputs ++ _ = _
      rw [ih]
      rfl

/-- C5: the decode loop of `train_one_batch` executes exactly
`min(max target length in batch, configured max decode steps)` iterations,
and the decoder input of step `di` is the gold target column
`dec_batch[:, di]` (teacher forcing), never a model prediction. -/
theorem C5_teacher_forced_decode_loop {B V L : ℕ} {S Ctx : Type} (H : Hyper)
    (M : BatchModel B V L S Ctx) (di : ℕ) (hdi : di < numSteps H M) :
    (runSteps H M (numSteps H M)).inputs.length = min M.max_dec_len H.max_dec_steps
    ∧ (runSteps H M (numSteps H M)).inputs[di]?
        = some (fun b => M.dec_batch b di) := by
  constructor
  · rw [runSteps_inputs]
    simp [numSteps]
  · rw [runSteps_inputs, List.getElem?_map, List.getElem?_range hdi]
    rfl

/-- C1: the scalar loss of `train_one_batch` is the mean over the batch of
(sum of the example's masked step losses) / (its target length); and for an
example whose target length equals the number of decode steps executed, the
per-example average is the unweighted mean of its step losses. -/
theorem C1_batch_loss_is_mean_of_length_normalized_sums {B V L : ℕ} {S Ctx : Type}
    (H : Hyper) (M : BatchModel B V L S Ctx) (b : Fin B)
    (hb : M.dec_lens_var b = ((numSteps H M : ℕ) : ℚ)) :
    loss H M
      = (∑ x, (((runSteps H M (numSteps H M)).step_losses).map (fun f => f x)).sum
          / M.dec_lens_var x) / B
    ∧ batch_avg_loss H M b
        = (((runSteps H M (numSteps H M)).step_losses).map (fun f => f b)).sum
          / ((((runSteps H M (numSteps H M)).step_losses).map (fun f => f b)).length : ℚ) := by
  constructor
  · rfl
  · have hlen :
        ((((runSteps H M (numSteps H M)).step_losses).map (fun f => f b)).length : ℚ)
          = ((numSteps H M : ℕ) : ℚ) := by
      rw [runSteps_step_losses]
      simp
    rw [hlen]
    show sum_losses H M b / M.dec_lens_var b = _
    rw [hb]
    rfl

/-- C2: with coverage disabled, the loss recorded at step `di` is
`dec_padding_mask[:, di] * (-log(final_dist[gold id] + eps))`, and an example
whose padding mask is zero at `di` contributes exactly zero at that step. -/
theorem C2_masked_negative_log_likelihood_step_loss {B V L : ℕ} {S Ctx : Type}
    (H : Hyper) (M : BatchModel B V L S Ctx) (di : ℕ)
    (hcov : H.is_coverage = false) (hdi : di < numSteps H M) :
    (runSteps H M (numSteps H M)).step_losses[di]?
      = some (fun b => M.dec_padding_mask b di *
          -(H.log ((decOut M (runSteps H M di) di).final_dist b (M.target_batch b di)
            + H.eps)))
    ∧ ∀ b, M.dec_padding_mask b di = 0 → stepLossOf H M (runSteps H M di) di b = 0 := by
  constructor
  · rw [runSteps_step_losses, List.getElem?_map, List.getElem?_range hdi]
    simp only [Option.map_some']
    congr 1
    funext b
    simp [stepLossOf, hcov, mul_comm]
  · intro b hb
    simp [stepLossOf, hcov, hb]

/-- C3: with coverage enabled, the loss recorded at step `di` adds
`cov_loss_wt * Σ_l min(attn_dist, coverage)` computed from the coverage
accumulator as it stood BEFORE step `di`, and only afterwards (entering step
`di + 1`) is the accumulator the decoder's returned `next_coverage`. -/
theorem C3_coverage_penalty_uses_pre_step_accumulator {B V L : ℕ} {S Ctx : Type}
    (H : Hyper) (M : BatchModel B V L S Ctx) (di : ℕ)
    (hcov : H.is_coverage = true) (hdi : di < numSteps H M) :
    (runSteps H M (numSteps H M)).step_losses[di]?
      = some (fun b =>
          (-(H.log ((decOut M (runSteps H M di) di).final_dist b (M.target_batch b di)
              + H.eps))
            + H.cov_loss_wt * step_coverage_loss (decOut M (runSteps H M di) di).attn_dist
                (runSteps H M di).coverage b)
          * M.dec_padding_mask b di)
    ∧ (runSteps H M (di + 1)).coverage
        = (decOut M (runSteps H M di) di).next_coverage := by
  constructor
  · rw [runSteps_step_losses, List.getElem?_map, List.getElem?_range hdi]
    simp only [Option.map_some']
    congr 1
    funext b
    simp [stepLossOf, hcov]
  · show (doStep H M (runSteps H M di) di).coverage = _
    simp [doStep, hcov]

/-- C9: the per-step coverage penalty — the sum of the element-wise minimum
of the attention distribution and the coverage accumulator — is non-negative
whenever both inputs are element-wise non-negative. -/
theorem C9_coverage_loss_nonneg {B L : ℕ} (attn_dist coverage : Fin B → Fin L → ℚ)
    (b : Fin B) (ha : ∀ l, 0 ≤ attn_dist b l) (hc : ∀ l, 0 ≤ coverage b l) :
    0 ≤ step_coverage_loss attn_dist coverage b := by
  refine Finset.sum_nonneg fun l _ => ?_
  exact le_min (ha l) (hc l)

/-- The record saved by `Train.save_model` (train.py lines 48-60): exactly
the iteration count, the three parameter-group state dicts, the optimizer
state and the running average loss.  `P` is the opaque type of a parameter
state dict, `O` the opaque type of the optimizer state. -/
structure TrainCheckpoint (P O : Type) where
  iter : ℕ
  encoder_state_dict : P
  decoder_state_dict : P
  reduce_state_dict : P
  optimizer : O
  current_loss : ℚ

/-- Embedding of `Train.save_model` (lines 48-60): assembles the checkpoint
record from the running average loss, iteration count, the three parameter
groups and the optimizer state. -/
def save_model {P O : Type} (enc dec red : P) (opt : O)
    (running_avg_loss : ℚ) (iter : ℕ) : TrainCheckpoint P O :=
  { iter := iter
    encoder_state_dict := enc
    decoder_state_dict := dec
    reduce_state_dict := red
    optimizer := opt
    current_loss := running_avg_loss }

/-- Model of `torch.load` applied to the file written by `torch.save`
(external serialization, lines 59 and 77-79): deserialization recovers the
saved record. -/
def torch_round_trip {P O : Type} (c : TrainCheckpoint P O) : TrainCheckpoint P O := c

/-- Embedding of `Train.setup_train` (lines 62-91), restricted to the state
it establishes: the optimizer is constructed with accumulator
`adagrad_init_acc`; when a checkpoint path is given, `start_iter` and
`start_loss` are read from it, and the persisted optimizer state replaces the
fresh accumulator exactly when `config.is_coverage` is false (line 83-84).
Returns `(start_iter, start_loss, optimizer state)`. -/
def setup_train {P O : Type} (adagrad_init_acc : O) (is_coverage : Bool)
    (model_file_path : Option (TrainCheckpoint P O)) : ℕ × ℚ × O :=
  match model_file_path with
  | none => (0, 0, adagrad_init_acc)
  | some state =>
      (state.iter, state.current_loss,
        if is_coverage then adagrad_init_acc else state.optimizer)

/-- C4 counterexample: on a RESUMED run with coverage enabled, `setup_train`
leaves the optimizer accumulator at the fresh initial constant (here `0`)
instead of the checkpoint's persisted accumulator (here `5`) — refuting
"the accumulator is reset to the configured initial constant only on fresh
(non-resumed) runs, never on a resumed run". -/
theorem C4_resumed_coverage_run_resets_accumulator :
    (@setup_train Unit ℚ 0 true (some ⟨7, (), (), (), 5, 1⟩)).2.2 = 0
    ∧ ((⟨7, (), (), (), 5, 1⟩ : TrainCheckpoint Unit ℚ)).optimizer ≠ 0 := by
  constructor
  · rfl
  · norm_num

/-- C4 amended: the persisted accumulator is loaded exactly when a checkpoint
path is given AND coverage is disabled; the accumulator stays at the initial
constant on fresh runs and also on resumed runs with coverage enabled, while
`start_iter` and `start_loss` always come from the checkpoint when given. -/
theorem C4_accumulator_loaded_iff_resumed_without_coverage {P O : Type}
    (adagrad_init_acc : O) (is_coverage : Bool) (ck : TrainCheckpoint P O) :
    (setup_train adagrad_init_acc is_coverage
        (none : Option (TrainCheckpoint P O))).2.2 = adagrad_init_acc
    ∧ (setup_train adagrad_init_acc false (some ck)).2.2 = ck.optimizer
    ∧ (setup_train adagrad_init_acc true (some ck)).2.2 = adagrad_init_acc
    ∧ (setup_train adagrad_init_acc is_coverage (some ck)).1 = ck.iter
    ∧ (setup_train adagrad_init_acc is_coverage (some ck)).2.1 = ck.current_loss := by
  cases is_coverage <;> exact ⟨rfl, rfl, rfl, rfl, rfl⟩

/-- C6: checkpoint round-trip.  Saving at iteration `N` with running loss
`Lq`, parameter groups `e`, `d`, `r` and optimizer state `o` and then loading
the saved record reconstructs every field, and `setup_train` resumed from it
recovers `(N, Lq, o)`; the record contains exactly the iteration, the three
parameter-group state dicts, the optimizer state and the running loss
(the fields of `TrainCheckpoint`). -/
theorem C6_checkpoint_round_trip {P O : Type} (N : ℕ) (Lq : ℚ) (e d r : P)
    (o adagrad_init_acc : O) :
    torch_round_trip (save_model e d r o Lq N) = save_model e d r o Lq N
    ∧ (torch_round_trip (save_model e d r o Lq N)).iter = N
    ∧ (torch_round_trip (save_model e d r o Lq N)).current_loss = Lq
    ∧ (torch_round_trip (save_model e d r o Lq N)).encoder_state_dict = e
    ∧ (torch_round_trip (save_model e d r o Lq N)).decoder_state_dict = d
    ∧ (torch_round_trip (save_model e d r o Lq N)).reduce_state_dict = r
    ∧ (torch_round_trip (save_model e d r o Lq N)).optimizer = o
    ∧ setup_train adagrad_init_acc false
        (some (torch_round_trip (save_model e d r o Lq N))) = (N, Lq, o) :=
  ⟨rfl, rfl, rfl, rfl, rfl, rfl, rfl, rfl⟩

/-- Body recursion of `Train.trainIters` (train.py lines 148-178), embedded
structurally on the number of remaining iterations (`while iter < n_iters`
with `iter += 1` each pass is recursion on `n_iters - iter`).  Each pass:
train one batch, THEN increment `iter` (line 157), then — with the
incremented counter — test `iter % 5000 == 0` (line 166); on a save point,
persist a checkpoint recording the incremented counter (line 168) and, when
`evaluate` is set, run the external beam-search evaluator (lines 170-172)
with NO exception handler, so an evaluator failure propagates out of the
loop (`Except.error`).  `executed` records the post-increment label of every
completed pass; `saved` records the `iter` value stored in each checkpoint.
Summary flushing and logging (lines 159-165) have no effect on this state
and are omitted. -/
def trainLoopAux (evalFn : ℕ → Except String Unit) (evaluate : Bool) :
    ℕ → ℕ → List ℕ → List ℕ → Except String (List ℕ × List ℕ)
  | 0, _, executed, saved => .ok (executed, saved)
  | remaining + 1, iter, executed, saved =>
      let iterNext := iter + 1
      if iterNext % 5000 = 0 then
        if evaluate then
          match evalFn iterNext with
          | .error e => .error e
          | .ok _ =>
              trainLoopAux evalFn evaluate remaining iterNext
                (executed ++ [iterNext]) (saved ++ [iterNext])
        else
          trainLoopAux evalFn evaluate remaining iterNext
            (executed ++ [iterNext]) (saved ++ [iterNext])
      else
        trainLoopAux evalFn evaluate remaining iterNext
          (executed ++ [iterNext]) saved

/-- Embedding of `Train.trainIters` (lines 143-178): run the loop from
`start_iter` (as returned by `setup_train`) until the counter reaches
`n_iters`. -/
def trainIters (evalFn : ℕ → Except String Unit) (evaluate : Bool)
    (n_iters start_iter : ℕ) : Except String (List ℕ × List ℕ) :=
  trainLoopAux evalFn evaluate (n_iters - start_iter) start_iter [] []

/-- Closed form of the loop when evaluation is disabled: the passes completed
are the consecutive post-increment labels, and the checkpoints record exactly
the labels divisible by 5000. -/
theorem trainLoopAux_closed_form (evalFn : ℕ → Except String Unit)
    (remaining : ℕ) :
    ∀ (iter : ℕ) (executed saved : List ℕ),
    trainLoopAux evalFn false remaining iter executed saved
      = .ok (executed ++ List.range' (iter + 1) remaining,
          saved ++ (List.range' (iter + 1) remaining).filter (fun x => x % 5000 = 0)) := by
  induction remaining with
  | zero => intro iter executed saved; simp [trainLoopAux]
  | succ r ih =>
      intro iter executed saved
      rw [List.range'_succ]
      by_cases h : (iter + 1) % 5000 = 0
      · rw [trainLoopAux, if_pos h, if_neg (by simp)]
        rw [ih]
        simp [h]
      · rw [trainLoopAux, if_neg h]
        rw [ih]
        simp [h]

/-- C10: the counter is incremented before the every-5000 check, so each
checkpoint stores the number of completed passes (the saved labels are
executed pass labels divisible by 5000); a run resumed from a checkpoint
saved at iteration `N` starts at `N` (via `setup_train`), executes exactly
`n - N` further passes, and those passes (labels `N+1 .. n`) extend — never
repeat — the passes `1 .. N` completed before the save. -/
theorem C10_checkpoint_iteration_accounting (evalFn : ℕ → Except String Unit)
    (n N : ℕ) (hN : N ≤ n) :
    trainIters evalFn false n N
      = .ok (List.range' (N + 1) (n - N),
          (List.range' (N + 1) (n - N)).filter (fun x => x % 5000 = 0))
    ∧ (List.range' (N + 1) (n - N)).length = n - N
    ∧ List.range' 1 N ++ List.range' (N + 1) (n - N) = List.range' 1 n
    ∧ (∀ x ∈ List.range' (N + 1) (n - N), N < x ∧ x ≤ n)
    ∧ (∀ (P O : Type) (adagrad_init_acc o : O) (e d r : P) (Lq : ℚ),
        (setup_train adagrad_init_acc false (some (save_model e d r o Lq N))).1 = N) := by
  refine ⟨?_, ?_, ?_, ?_, ?_⟩
  · rw [trainIters, trainLoopAux_closed_form]
    simp
  · simp
  · have h := List.range'_append 1 N (n - N) 1
    simpa [Nat.sub_add_cancel hN, Nat.add_comm] using h
  · intro x hx
    rw [List.mem_range'_1] at hx
    omega
  · intro P O adagrad_init_acc o e d r Lq
    rfl

/-- C7 counterexample: at the save point reached from iteration 4999 (the
counter becomes 5000, divisible by 5000) with evaluation enabled, a failing
beam-search evaluator makes the training loop return the error — training is
aborted — whereas the identical run with a succeeding evaluator completes
both remaining passes. -/
theorem C7_eval_failure_aborts_training :
    trainIters (fun _ => .error "beam search failed") true 5001 4999
      = .error "beam search failed"
    ∧ trainIters (fun _ => .ok ()) true 5001 4999
      = .ok ([5000, 5001], [5000]) := by
  constructor
  · rfl
  · rfl

/-- C7 amended: the beam-search evaluation call is unguarded, so when the
incremented counter hits a multiple of 5000 with evaluation enabled and the
evaluator fails, the failure propagates and the loop terminates immediately
with that error instead of proceeding to the next iteration. -/
theorem C7_eval_failure_propagates (evalFn : ℕ → Except String Unit)
    (r iter : ℕ) (executed saved : List ℕ) (e : String)
    (hsave : (iter + 1) % 5000 = 0) (herr : evalFn (iter + 1) = .error e) :
    trainLoopAux evalFn true (r + 1) iter executed saved = .error e := by
  rw [trainLoopAux, if_pos hsave, if_pos rfl, herr]

/-- Witness for the amended C7 theorem at a concrete failing evaluator and
the save point after iteration 4999. -/
theorem C7_eval_failure_propagates_witness :
    trainLoopAux (fun _ => .error "E") true 1 4999 [] [] = .error "E" :=
  C7_eval_failure_propagates (fun _ => .error "E") 0 4999 [] [] "E"
    (by decide) rfl

/-- Euclidean (2-)norm of a flattened gradient vector, the total norm used
by `torch.nn.utils.clip_grad_norm_` (train.py lines 133-137). -/
noncomputable def grad_norm (g : List ℝ) : ℝ :=
  Real.sqrt ((g.map (fun x => x ^ 2)).sum)

/-- Model of the external `clip_grad_norm_(parameters, max_norm)` contract
(spec 4.2 step 8): when the group's gradient norm exceeds `max_norm` the
gradients are rescaled by `max_norm / norm`, otherwise left unchanged. -/
noncomputable def clip_grad_norm (g : List ℝ) (max_norm : ℝ) : List ℝ :=
  if max_norm < grad_norm g then g.map (fun x => (max_norm / grad_norm g) * x)
  else g

/-- The three independent clipping calls of train.py lines 133-137, one per
parameter group (encoder, decoder, state-reducer), all with
`config.max_grad_norm`. -/
noncomputable def clip_all (enc dec red : List ℝ) (max_grad_norm : ℝ) :
    List ℝ × List ℝ × List ℝ :=
  (clip_grad_norm enc max_grad_norm, clip_grad_norm dec max_grad_norm,
    clip_grad_norm red max_grad_norm)

/-- Scaling every gradient entry by `k ≥ 0` scales the Euclidean norm by
`k`. -/
theorem grad_norm_scale (k : ℝ) (g : List ℝ) (hk : 0 ≤ k) :
    grad_norm (g.map (fun x => k * x)) = k * grad_norm g := by
  unfold grad_norm
  rw [List.map_map]
  have hsum : ((g.map (fun x => (k * x) ^ 2)).sum)
      = k ^ 2 * (g.map (fun x => x ^ 2)).sum := by
    induction g with
    | nil => simp
    | cons a t ih =>
        simp only [List.map_cons, List.sum_cons, ih]
        ring
  have hcomp : ((fun x => x ^ 2) ∘ fun x => k * x) = fun x => (k * x) ^ 2 := rfl
  rw [hcomp, hsum, Real.sqrt_mul (sq_nonneg k), Real.sqrt_sq hk]

/-- C8: the three parameter groups are clipped independently; a group whose
gradient norm exceeds the bound is rescaled to exactly the maximum norm,
while groups already within the bound are returned unchanged. -/
theorem C8_independent_per_group_clipping (enc dec red : List ℝ) (c : ℝ)
    (hc : 0 < c) (he : c < grad_norm enc) (hd : grad_norm dec ≤ c)
    (hr : grad_norm red ≤ c) :
    grad_norm (clip_all enc dec red c).1 = c
    ∧ (clip_all enc dec red c).2.1 = dec
    ∧ (clip_all enc dec red c).2.2 = red := by
  have hpos : 0 < grad_norm enc := lt_trans hc he
  refine ⟨?_, ?_, ?_⟩
  · show grad_norm (clip_grad_norm enc c) = c
    rw [clip_grad_norm, if_pos he,
      grad_norm_scale _ _ (div_nonneg hc.le hpos.le)]
    field_simp
  · show clip_grad_norm dec c = dec
    rw [clip_grad_norm, if_neg (not_lt.2 hd)]
  · show clip_grad_norm red c = red
    rw [clip_grad_norm, if_neg (not_lt.2 hr)]

/-- Norm of the concrete gradient `[3, 4]`. -/
theorem grad_norm_three_four : grad_norm [3, 4] = 5 := by
  unfold grad_norm
  have h : (([3, 4] : List ℝ).map (fun x => x ^ 2)).sum = 25 := by norm_num
  rw [h, show (25 : ℝ) = 5 ^ 2 by norm_num, Real.sqrt_sq (by norm_num : (0:ℝ) ≤ 5)]

/-- Norm of the concrete gradient `[1]`. -/
theorem grad_norm_single_one : grad_norm [1] = 1 := by
  unfold grad_norm
  have h : (([1] : List ℝ).map (fun x => x ^ 2)).sum = 1 := by norm_num
  rw [h, Real.sqrt_one]

/-- Norm of the empty gradient. -/
theorem grad_norm_nil : grad_norm [] = 0 := by
  unfold grad_norm
  simp

/-- Witness for C8 at `enc = [3,4]` (norm 5 > 2), `dec = [1]` (norm 1 ≤ 2),
`red = []` (norm 0 ≤ 2), bound 2. -/
theorem C8_independent_per_group_clipping_witness :
    grad_norm (clip_all [3, 4] [1] [] 2).1 = 2
    ∧ (clip_all [3, 4] [1] [] 2).2.1 = [1]
    ∧ (clip_all [3, 4] [1] [] 2).2.2 = [] :=
  C8_independent_per_group_clipping [3, 4] [1] [] 2 (by norm_num)
    (by rw [grad_norm_three_four]; norm_num)
    (by rw [grad_norm_single_one]; norm_num)
    (by rw [grad_norm_nil]; norm_num)

/-- Concrete hyperparameters with coverage disabled, used by witnesses. -/
def Hoff : Hyper :=
  { is_coverage := false, cov_loss_wt := 1, eps := 1/10, max_dec_steps := 3
    log := fun _ => 0 }

/-- Concrete hyperparameters with coverage enabled, used by witnesses. -/
def Hon : Hyper :=
  { is_coverage := true, cov_loss_wt := 1, eps := 1/10, max_dec_steps := 3
    log := fun _ => 0 }

/-- Concrete one-example batch with max target length two, used by
witnesses. -/
def Mc : BatchModel 1 1 1 Unit Unit :=
  { dec_batch := fun _ di => di
    target_batch := fun _ _ => 0
    dec_padding_mask := fun _ _ => 1
    dec_lens_var := fun _ => 2
    max_dec_len := 2
    decoder := fun _ _ _ _ _ =>
      { final_dist := fun _ _ => 1/2
        s_t_1 := ()
        c_t_1 := ()
        attn_dist := fun _ _ => 1/4
        p_gen := fun _ => 1
        next_coverage := fun _ _ => 1/4 }
    s_0 := ()
    c_0 := ()
    coverage_0 := fun _ _ => 0 }

/-- Witness for C5 at the concrete batch (two decode steps), step 0. -/
theorem C5_teacher_forced_decode_loop_witness :
    (runSteps Hoff Mc (numSteps Hoff Mc)).inputs.length
      = min Mc.max_dec_len Hoff.max_dec_steps
    ∧ (runSteps Hoff Mc (numSteps Hoff Mc)).inputs[0]?
        = some (fun b => Mc.dec_batch b 0) :=
  C5_teacher_forced_decode_loop Hoff Mc 0 (by decide)

/-- Witness for C1 at the concrete batch, whose single example has target
length 2 equal to the number of decode steps. -/
theorem C1_batch_loss_is_mean_witness :
    Mc.dec_lens_var 0 = ((numSteps Hoff Mc : ℕ) : ℚ)
    ∧ batch_avg_loss Hoff Mc 0
        = (((runSteps Hoff Mc (numSteps Hoff Mc)).step_losses).map (fun f => f 0)).sum
          / ((((runSteps Hoff Mc (numSteps Hoff Mc)).step_losses).map (fun f => f 0)).length : ℚ) :=
  ⟨by decide,
    (C1_batch_loss_is_mean_of_length_normalized_sums Hoff Mc 0 (by decide)).2⟩

/-- Witness for C2 at the concrete batch with coverage disabled, step 0. -/
theorem C2_masked_negative_log_likelihood_witness :
    (runSteps Hoff Mc (numSteps Hoff Mc)).step_losses[0]?
      = some (fun b => Mc.dec_padding_mask b 0 *
          -(Hoff.log ((decOut Mc (runSteps Hoff Mc 0) 0).final_dist b (Mc.target_batch b 0)
            + Hoff.eps)))
    ∧ ∀ b, Mc.dec_padding_mask b 0 = 0 → stepLossOf Hoff Mc (runSteps Hoff Mc 0) 0 b = 0 :=
  C2_masked_negative_log_likelihood_step_loss Hoff Mc 0 rfl (by decide)

/-- Witness for C3 at the concrete batch with coverage enabled, step 0. -/
theorem C3_coverage_penalty_witness :
    (runSteps Hon Mc (numSteps Hon Mc)).step_losses[0]?
      = some (fun b =>
          (-(Hon.log ((decOut Mc (runSteps Hon Mc 0) 0).final_dist b (Mc.target_batch b 0)
              + Hon.eps))
            + Hon.cov_loss_wt * step_coverage_loss (decOut Mc (runSteps Hon Mc 0) 0).attn_dist
                (runSteps Hon Mc 0).coverage b)
          * Mc.dec_padding_mask b 0)
    ∧ (runSteps Hon Mc (0 + 1)).coverage
        = (decOut Mc (runSteps Hon Mc 0) 0).next_coverage :=
  C3_coverage_penalty_uses_pre_step_accumulator Hon Mc 0 rfl (by decide)

/-- Witness for C9 at concrete non-negative attention and coverage. -/
theorem C9_coverage_loss_nonneg_witness :
    0 ≤ step_coverage_loss ((fun _ _ => 1/4) : Fin 1 → Fin 1 → ℚ)
        ((fun _ _ => 0) : Fin 1 → Fin 1 → ℚ) 0 :=
  C9_coverage_loss_nonneg (fun _ _ => 1/4) (fun _ _ => 0) 0
    (fun _ => by norm_num) (fun _ => le_refl 0)

/-- Witness for C10 resuming at iteration 1 with a budget of 3. -/
theorem C10_checkpoint_iteration_accounting_witness :
    trainIters (fun _ => .ok ()) false 3 1
      = .ok (List.range' (1 + 1) (3 - 1),
          (List.range' (1 + 1) (3 - 1)).filter (fun x => x % 5000 = 0))
    ∧ (List.range' (1 + 1) (3 - 1)).length = 3 - 1
    ∧ List.range' 1 1 ++ List.range' (1 + 1) (3 - 1) = List.range' 1 3
    ∧ (∀ x ∈ List.range' (1 + 1) (3 - 1), 1 < x ∧ x ≤ 3)
    ∧ (∀ (P O : Type) (adagrad_init_acc o : O) (e d r : P) (Lq : ℚ),
        (setup_train adagrad_init_acc false (some (save_model e d r o Lq 1))).1 = 1) :=
  C10_checkpoint_iteration_accounting (fun _ => .ok ()) 3 1 (by norm_num)
